import Mathlib

/-!
Shallow embedding of the `claude-file-search` repository (an MCP keyword-search
server over document files) and proofs about its scan engine, extractor
handlers, registry and listing pagination.

Python strings are modelled as `List Char` (sequences of Unicode code points,
matching Python `str` indexing and `len`).  Stateful or fallible steps are
modelled with explicit data: a per-file task that raised is `Except.error`,
and the filesystem inputs (extracted sections, discovered files) are explicit
arguments.
-/

namespace FileSearch

/-- Python strings as lists of code points. -/
abbrev PStr := List Char

/-- Coerce a Lean string literal into the `PStr` model. -/
def strL (s : String) : PStr := s.toList

/-- Python `str.lower()`; the repository only exercises ASCII case folding. -/
def lowerL (s : PStr) : PStr := s.map Char.toLower

/-- Word characters of the regex class `\w` (ASCII range, as exercised by the
source's keyword patterns). -/
def isWordChar (c : Char) : Bool := c.isAlphanum || c == '_'

/-- Word-character test on an optional character; `none` stands for the start
or end of the text and counts as a non-word position. -/
def optWord : Option Char → Bool
  | none => false
  | some c => isWordChar c

/-- The regex word boundary `\b` between two adjacent positions: it holds when
exactly one of the two sides is a word character. -/
def wordBoundary (a b : Option Char) : Bool := optWord a != optWord b

/-- Does the pattern (first argument) occur literally at the head of the text? -/
def litHere : PStr → PStr → Bool
  | [], _ => true
  | _ :: _, [] => false
  | p :: ps, c :: cs => p == c && litHere ps cs

/-- Last character of the nonempty list `k0 :: ks`. -/
def lastChar (k0 : Char) : PStr → Char
  | [] => k0
  | k1 :: ks => lastChar k1 ks

/-- Core scanner of `re.findall(keyword_pattern, section_text)` where
`keyword_pattern = re.compile(r'\b' + re.escape(keywords) + r'\b', re.IGNORECASE)`
(file_search_server.py:206,238): counts the non-overlapping, left-to-right
matches of the literal keyword `k0 :: ks` delimited by word boundaries.
`prev` is the character just before the current position; both keyword and
text are already lower-cased by the caller.  The fuel argument (initially the
text length, consumed one unit per examined position) makes the recursion
structural; each step consumes at least one character, so the fuel never runs
out before the text does. -/
def scanAux (k0 : Char) (ks : PStr) : Nat → Option Char → PStr → Nat
  | 0, _, _ => 0
  | _ + 1, _, [] => 0
  | fuel + 1, prev, c :: rest =>
    if litHere (k0 :: ks) (c :: rest)
        && wordBoundary prev (some k0)
        && wordBoundary (some (lastChar k0 ks)) (rest.drop ks.length).head? then
      1 + scanAux k0 ks fuel (some (lastChar k0 ks)) (rest.drop ks.length)
    else
      scanAux k0 ks fuel (some c) rest

/-- Number of keyword matches in a section text:
`len(re.findall(keyword_pattern, section_text))` at file_search_server.py:238.
The degenerate empty keyword (never produced by the tool layer) is modelled
as zero matches. -/
def countWordMatches (kw text : PStr) : Nat :=
  match lowerL kw with
  | [] => 0
  | k0 :: ks => scanAux k0 ks (lowerL text).length none (lowerL text)

/-- One extracted section dict
`{"section_number": ..., "section_type": ..., "text": ...}`.  The diagnostic
sections built in file_search_server.py:177,186 carry no `section_type`,
hence the `Option`. -/
structure Section where
  section_number : Nat
  section_type : Option PStr
  text : PStr
deriving DecidableEq, Repr

/-- A ContentMatch dict as appended at file_search_server.py:241-245. -/
structure ContentMatch where
  section_number : Nat
  match_count : Nat
  preview : PStr
deriving DecidableEq, Repr

/-- The SearchResult model (file_search_server.py:80-86). -/
structure SearchResult where
  filename : PStr
  file_type : PStr
  path : PStr
  content_matches : List ContentMatch
  match_count : Nat
deriving DecidableEq, Repr

/-- Preview construction at file_search_server.py:240:
`section_text[:200] + "..." if len(section_text) > 200 else section_text`. -/
def mkPreview (t : PStr) : PStr :=
  if t.length > 200 then t.take 200 ++ strL "..." else t

/-- Per-section step of `process_file` (file_search_server.py:232-245): skip a
section whose text is empty (falsy), and record a ContentMatch when the
keyword pattern matches at least once. -/
def sectionMatch (kw : PStr) (s : Section) : Option ContentMatch :=
  if s.text = [] then none
  else
    let n := countWordMatches kw s.text
    if n > 0 then some ⟨s.section_number, n, mkPreview s.text⟩ else none

/-- The per-file data consumed by `process_file`: the file's name, type label,
path, and the sections returned by `extract_text_from_file`.  The `file_type`
field holds `handler.get_type_description() if handler else "Unknown"`
(file_search_server.py:228-229). -/
structure FileInput where
  filename : PStr
  file_type : PStr
  path : PStr
  sections : List Section
deriving DecidableEq, Repr

/-- A file task as seen by `process_file`: `Except.error msg` models a fault
raised while extracting or matching that file, which the per-file
`try/except` catches and logs (file_search_server.py:283-290). -/
abbrev FileTask := Except PStr FileInput

/-- The successful body of `process_file` (file_search_server.py:231-256):
collect the ContentMatches of the file's sections; build a SearchResult only
when at least one section matched, with `match_count` the sum over the
recorded matches. -/
def processFile (kw : PStr) (f : FileInput) : Option SearchResult :=
  let cms := f.sections.filterMap (sectionMatch kw)
  if cms = [] then none
  else some { filename := f.filename, file_type := f.file_type, path := f.path,
              content_matches := cms,
              match_count := (cms.map (fun m => m.match_count)).sum }

/-- One `process_file` task (file_search_server.py:221-290): a task whose
extraction or matching raised contributes nothing to the shared results
list (the exception is caught, logged and the file omitted). -/
def processTask (kw : PStr) (t : FileTask) : Option SearchResult :=
  match t with
  | .error _ => none
  | .ok f => processFile kw f

/-- The ranking relation of
`results.sort(key=lambda x: x.match_count, reverse=True)`
(file_search_server.py:301,367): `a` ranks no lower than `b`. -/
def rankGE (a b : SearchResult) : Prop := b.match_count ≤ a.match_count

instance : DecidableRel rankGE := fun _ b => Nat.decLe b.match_count _

instance : IsTotal SearchResult rankGE :=
  ⟨fun a b => Nat.le_total b.match_count a.match_count⟩

instance : IsTrans SearchResult rankGE :=
  ⟨fun _ _ _ h1 h2 => Nat.le_trans h2 h1⟩

/-- The final descending sort of the results list.  Python `list.sort` is a
stable sort; a stable sort by a fixed key is extensionally unique, so it is
modelled with Mathlib's stable insertion sort. -/
def sortResults (l : List SearchResult) : List SearchResult := l.insertionSort rankGE

/-- The scan engine `search_files` (file_search_server.py:188-307) applied to
the list of discovered file tasks.  Concurrent task completion only permutes
the shared `results` list before the final sort; the embedding processes
tasks in list order. -/
def search_files (kw : PStr) (files : List FileTask) : List SearchResult :=
  sortResults (files.filterMap (processTask kw))

/-- The multi-directory composition in `search_files_tool`
(file_search_server.py:354-367): concatenate the per-directory scan results,
then re-sort the combined list by match count. -/
def search_files_tool (kw : PStr) (dirs : List (List FileTask)) : List SearchResult :=
  sortResults ((dirs.map (search_files kw)).flatten)

theorem sortResults_sorted (l : List SearchResult) :
    (sortResults l).Pairwise (fun a b => b.match_count ≤ a.match_count) :=
  List.sorted_insertionSort rankGE l

theorem sortResults_perm (l : List SearchResult) : List.Perm (sortResults l) l :=
  List.perm_insertionSort rankGE l

/-- C1: every `search_files` scan returns its SearchResults sorted in
descending order of `match_count` (ties in any order), and the concatenated,
re-sorted multi-directory result list of `search_files_tool` is sorted the
same way. -/
theorem c1_results_sorted_desc :
    (∀ (kw : PStr) (files : List FileTask),
      (search_files kw files).Pairwise (fun a b => b.match_count ≤ a.match_count)) ∧
    (∀ (kw : PStr) (dirs : List (List FileTask)),
      (search_files_tool kw dirs).Pairwise (fun a b => b.match_count ≤ a.match_count)) :=
  ⟨fun _ _ => sortResults_sorted _, fun _ _ => sortResults_sorted _⟩

/-- C2: every SearchResult returned by a scan has `match_count` equal to the
sum of the `match_count` fields of its `content_matches`, and its
`content_matches` list is non-empty. -/
theorem c2_match_count_sum (kw : PStr) (files : List FileTask) (r : SearchResult)
    (hr : r ∈ search_files kw files) :
    r.match_count = (r.content_matches.map (fun m => m.match_count)).sum ∧
    r.content_matches ≠ [] := by
  have hr2 : r ∈ files.filterMap (processTask kw) :=
    (sortResults_perm _).mem_iff.mp hr
  rcases List.mem_filterMap.mp hr2 with ⟨t, _, hpt⟩
  cases t with
  | error e => simp [processTask] at hpt
  | ok f =>
    simp only [processTask] at hpt
    unfold processFile at hpt
    by_cases hc : f.sections.filterMap (sectionMatch kw) = []
    · simp [hc] at hpt
    · simp only [hc, if_neg, ite_false] at hpt
      cases hpt
      exact ⟨rfl, hc⟩

/-- Witness for C2: a one-file scan where the file's single section contains
the keyword once. -/
theorem c2_match_count_sum_witness :
    (⟨strL "a.txt", strL "Text", strL "/d/a.txt",
        [⟨1, 1, strL "a cat sat"⟩], 1⟩ : SearchResult) ∈
      search_files (strL "cat")
        [Except.ok ⟨strL "a.txt", strL "Text", strL "/d/a.txt",
          [⟨1, some (strL "text_chunk"), strL "a cat sat"⟩]⟩] ∧
    ((⟨strL "a.txt", strL "Text", strL "/d/a.txt",
        [⟨1, 1, strL "a cat sat"⟩], 1⟩ : SearchResult).match_count =
      (((⟨strL "a.txt", strL "Text", strL "/d/a.txt",
        [⟨1, 1, strL "a cat sat"⟩], 1⟩ : SearchResult).content_matches.map
          (fun m => m.match_count)).sum) ∧
      (⟨strL "a.txt", strL "Text", strL "/d/a.txt",
        [⟨1, 1, strL "a cat sat"⟩], 1⟩ : SearchResult).content_matches ≠ []) :=
  ⟨by decide,
   c2_match_count_sum (strL "cat")
    [Except.ok ⟨strL "a.txt", strL "Text", strL "/d/a.txt",
      [⟨1, some (strL "text_chunk"), strL "a cat sat"⟩]⟩]
    ⟨strL "a.txt", strL "Text", strL "/d/a.txt", [⟨1, 1, strL "a cat sat"⟩], 1⟩
    (by decide)⟩

/-- C3: keyword matching is case-insensitive with whole-word (word-boundary)
semantics.  Case-insensitivity in general: the match count depends only on
the lower-cased keyword and text.  Whole-word semantics on the claim's own
instances: "cat" matches the delimited token in "the cat sat" (also under
different casing) but never inside the larger tokens "category" or
"concat"; accordingly a section whose text is "category" yields no
ContentMatch while "the cat sat" yields one with one match. -/
theorem c3_whole_word_case_insensitive :
    (∀ kw1 kw2 text1 text2 : PStr, lowerL kw1 = lowerL kw2 →
      lowerL text1 = lowerL text2 →
      countWordMatches kw1 text1 = countWordMatches kw2 text2) ∧
    countWordMatches (strL "cat") (strL "the cat sat") = 1 ∧
    countWordMatches (strL "CAT") (strL "The Cat sat") = 1 ∧
    countWordMatches (strL "cat") (strL "category") = 0 ∧
    countWordMatches (strL "cat") (strL "a cat, a dog, a cat") = 2 ∧
    countWordMatches (strL "cat") (strL "concat cats") = 0 ∧
    sectionMatch (strL "cat") ⟨1, some (strL "text_chunk"), strL "the cat sat"⟩ =
      some ⟨1, 1, strL "the cat sat"⟩ ∧
    sectionMatch (strL "cat") ⟨1, some (strL "text_chunk"), strL "category"⟩ = none := by
  refine ⟨?_, by decide⟩
  intro kw1 kw2 t1 t2 h1 h2
  unfold countWordMatches
  rw [h1, h2]

/-- Witness for C3: matching "CAT" against a differently-cased text gives the
same count as matching "cat" against the lower-cased text. -/
theorem c3_whole_word_case_insensitive_witness :
    countWordMatches (strL "CAT") (strL "The Cat saT") =
      countWordMatches (strL "cat") (strL "the cat sat") :=
  c3_whole_word_case_insensitive.1 (strL "CAT") (strL "cat")
    (strL "The Cat saT") (strL "the cat sat") (by decide) (by decide)

/-- C4: a fault raised while extracting or matching one file is confined to
that file's task boundary: a scan over a file list containing a faulting
task returns exactly the scan of the same list with that task removed, so
every other file's SearchResult survives and the scan itself (a total
function) never fails. -/
theorem c4_fault_isolation (kw : PStr) (a b : List FileTask) (e : PStr) :
    search_files kw (a ++ Except.error e :: b) = search_files kw (a ++ b) := by
  unfold search_files
  congr 1
  simp [List.filterMap_append, List.filterMap_cons, processTask]

/-- Python list slicing `files[s:e]` for nonnegative bounds (clamping at the
ends, empty when `e ≤ s`). -/
def pySlice {α : Type} (files : List α) (s e : Nat) : List α :=
  (files.drop s).take (e - s)

/-- Ceiling division on naturals: `math.ceil(total_files / limit)` of the
source for the positive `limit` enforced by the query model
(`1 ≤ limit ≤ 50`, file_search_server.py:112). -/
def ceilDiv (a b : Nat) : Nat := (a + b - 1) / b

/-- The pagination-relevant fields of the dict returned by
`get_directory_listing` (file_search_server.py:498-509). -/
structure ListingResult (α : Type) where
  entries : List α
  total_files : Nat
  page : Nat
  limit : Nat
  total_pages : Nat
deriving DecidableEq, Repr

/-- Pagination logic of `get_directory_listing`
(file_search_server.py:453-509) over the discovered file list: compute the
page window, clamp to the last valid page when the requested start offset is
at or past `total_files` (and the list is non-empty), and report the fields
of the result dict.  The result's `page` field echoes `query.page`
(file_search_server.py:502); `query.page ≥ 1` is enforced by the query
model, matching truncated subtraction here. -/
def get_directory_listing {α : Type} (files : List α) (qpage qlimit : Nat) :
    ListingResult α :=
  let total_files := files.length
  let start0 := (qpage - 1) * qlimit
  let end0 := min (start0 + qlimit) total_files
  let se :=
    if total_files ≤ start0 ∧ 0 < total_files then
      ((ceilDiv total_files qlimit - 1) * qlimit, total_files)
    else (start0, end0)
  { entries := pySlice files se.1 se.2
    total_files := total_files
    page := qpage
    limit := qlimit
    total_pages := if 0 < total_files then ceilDiv total_files qlimit else 1 }

/-- Counterexample for C5: with 25 files, limit 10 and requested page 5, the
engine does return the last valid page's 5 entries and `total_pages = 3`,
but the reported `page` field is the requested 5, not the last valid page 3. -/
theorem c5_counterexample :
    (get_directory_listing (List.range 25) 5 10).entries = [20, 21, 22, 23, 24] ∧
    (get_directory_listing (List.range 25) 5 10).total_pages = 3 ∧
    (get_directory_listing (List.range 25) 5 10).page = 5 ∧
    (get_directory_listing (List.range 25) 5 10).page ≠
      (get_directory_listing (List.range 25) 5 10).total_pages := by
  decide

/-- C5 (amended): when the requested start offset `(page-1)*limit` is not
below `total_files > 0`, the engine clamps the window to the last valid page
`ceil(total_files/limit)` and returns that page's entries with
`total_pages = ceil(total_files/limit)` — but the reported `page` field
echoes the requested page number rather than the clamped one. -/
theorem c5_pagination_clamp {α : Type} (files : List α) (qpage qlimit : Nat)
    (_hl : 0 < qlimit) (h0 : 0 < files.length)
    (hs : files.length ≤ (qpage - 1) * qlimit) :
    (get_directory_listing files qpage qlimit).entries =
      files.drop ((ceilDiv files.length qlimit - 1) * qlimit) ∧
    (get_directory_listing files qpage qlimit).total_pages =
      ceilDiv files.length qlimit ∧
    (get_directory_listing files qpage qlimit).entries.length =
      files.length - (ceilDiv files.length qlimit - 1) * qlimit ∧
    (get_directory_listing files qpage qlimit).page = qpage := by
  have hcond : files.length ≤ (qpage - 1) * qlimit ∧ 0 < files.length := ⟨hs, h0⟩
  have hdrop :
      pySlice files ((ceilDiv files.length qlimit - 1) * qlimit) files.length =
        files.drop ((ceilDiv files.length qlimit - 1) * qlimit) := by
    unfold pySlice
    have hlen := List.length_drop ((ceilDiv files.length qlimit - 1) * qlimit) files
    calc (files.drop ((ceilDiv files.length qlimit - 1) * qlimit)).take
          (files.length - (ceilDiv files.length qlimit - 1) * qlimit)
        = (files.drop ((ceilDiv files.length qlimit - 1) * qlimit)).take
            (files.drop ((ceilDiv files.length qlimit - 1) * qlimit)).length := by
          rw [hlen]
      _ = files.drop ((ceilDiv files.length qlimit - 1) * qlimit) :=
          List.take_length _
  refine ⟨?_, ?_, ?_, ?_⟩
  · simp only [get_directory_listing, if_pos hcond]
    exact hdrop
  · simp only [get_directory_listing, if_pos h0]
  · simp only [get_directory_listing, if_pos hcond]
    rw [hdrop]
    exact List.length_drop _ _
  · simp only [get_directory_listing]

/-- Witness for C5 (amended) at the claim's own numbers: 25 files, limit 10,
requested page 5. -/
theorem c5_pagination_clamp_witness :
    (get_directory_listing (List.range 25) 5 10).entries =
      (List.range 25).drop ((ceilDiv (List.range 25).length 10 - 1) * 10) ∧
    (get_directory_listing (List.range 25) 5 10).total_pages =
      ceilDiv (List.range 25).length 10 ∧
    (get_directory_listing (List.range 25) 5 10).entries.length =
      (List.range 25).length - (ceilDiv (List.range 25).length 10 - 1) * 10 ∧
    (get_directory_listing (List.range 25) 5 10).page = 5 :=
  c5_pagination_clamp (List.range 25) 5 10 (by decide) (by decide) (by decide)

/-- C6: a ContentMatch preview is `mkPreview` of the section's text, which
equals the full text when it is at most 200 characters, and otherwise the
first 200 characters plus the 3-character marker "...", for exactly 203
characters. -/
theorem c6_preview_truncation (t : PStr) :
    (t.length ≤ 200 → mkPreview t = t) ∧
    (200 < t.length →
      mkPreview t = t.take 200 ++ strL "..." ∧ (mkPreview t).length = 203) ∧
    (∀ (kw : PStr) (s : Section) (cm : ContentMatch),
      sectionMatch kw s = some cm → cm.preview = mkPreview s.text) := by
  refine ⟨?_, ?_, ?_⟩
  · intro h
    simp [mkPreview, Nat.not_lt.mpr h]
  · intro h
    have heq : mkPreview t = t.take 200 ++ strL "..." := by
      simp [mkPreview, h]
    refine ⟨heq, ?_⟩
    have h3 : (strL "...").length = 3 := rfl
    rw [heq, List.length_append, List.length_take, h3]
    omega
  · intro kw s cm hm
    unfold sectionMatch at hm
    split at hm
    · exact Option.noConfusion hm
    · dsimp only at hm
      split at hm
      · cases hm
        rfl
      · exact Option.noConfusion hm

set_option maxRecDepth 10000 in
/-- Witness for C6: a 500-character section text yields a 203-character
truncated preview, a 50-character text is returned untruncated, and a
concrete ContentMatch records exactly `mkPreview` of its section text. -/
theorem c6_preview_truncation_witness :
    (mkPreview (List.replicate 500 'a') =
        (List.replicate 500 'a').take 200 ++ strL "..." ∧
      (mkPreview (List.replicate 500 'a')).length = 203) ∧
    mkPreview (List.replicate 50 'b') = List.replicate 50 'b' ∧
    (⟨1, 1, strL "a cat"⟩ : ContentMatch).preview =
      mkPreview (strL "a cat") := by
  have h500 := c6_preview_truncation (List.replicate 500 'a')
  have h50 := c6_preview_truncation (List.replicate 50 'b')
  exact ⟨h500.2.1 (by decide), h50.1 (by decide),
    h500.2.2 (strL "cat") ⟨1, some (strL "text_chunk"), strL "a cat"⟩
      ⟨1, 1, strL "a cat"⟩ (by decide)⟩

/-- Python whitespace for `str.strip()` (the ASCII whitespace class, as
exercised by the repository's documents). -/
def pyWsp (c : Char) : Bool :=
  c == ' ' || c == '\t' || c == '\n' || c == '\r' || c == '\x0b' || c == '\x0c'

/-- Python `str.strip()`: drop whitespace from both ends. -/
def stripBoth (s : PStr) : PStr :=
  ((s.dropWhile pyWsp).reverse.dropWhile pyWsp).reverse

/-- A PPTX slide, as the list of `shape.text` strings of its shapes. -/
abbrev PSlide := List PStr

/-- The accumulated `slide_text` of PPTXHandler.extract_text
(pptx_handler.py:63-67): concatenate each truthy shape text followed by a
newline, then strip the total. -/
def pptxSlideText (sh : PSlide) : PStr :=
  stripBoth ((sh.map (fun t => if t = [] then [] else t ++ ['\n'])).flatten)

def pptxMarkerText : PStr := strL "... 추가 슬라이드 있음 (처리되지 않음) ..."

/-- The slide loop of PPTXHandler.extract_text (pptx_handler.py:56-74): one
section per slide with 1-based numbers; at the first index at or past the
cap, emit the overflow marker section and stop. -/
def pptxLoop (cap : Nat) : Nat → List PSlide → List Section
  | _, [] => []
  | i, sl :: rest =>
    if cap ≤ i then [⟨i + 1, some (strL "slide"), pptxMarkerText⟩]
    else ⟨i + 1, some (strL "slide"), pptxSlideText sl⟩ :: pptxLoop cap (i + 1) rest

/-- PPTXHandler.extract_text (pptx_handler.py:37-75) on a successfully opened
presentation, over its list of slides. -/
def pptxExtract (slides : List PSlide) (cap : Nat) : List Section :=
  pptxLoop cap 0 slides

def pdfMarkerText (total cap : Nat) : PStr :=
  strL "... 추가 페이지 있음 (총 " ++ strL (toString total) ++ strL "페이지 중 "
    ++ strL (toString cap) ++ strL "페이지까지만 처리) ..."

/-- PDFHandler.extract_text (pdf_handler.py:36-76) on a successfully opened
reader, over the list of page texts (a page whose `extract_text()` returned
a falsy value is modelled by the empty string): one section per page up to
the cap, stripped when truthy, then the overflow marker section when the
page count exceeds the cap. -/
def pdfExtract (pages : List PStr) (cap : Nat) : List Section :=
  (pages.take cap).enum.map
    (fun p => ⟨p.1 + 1, some (strL "page"),
      if p.2 = [] then [] else stripBoth p.2⟩)
  ++ (if cap < pages.length
      then [⟨cap + 1, some (strL "page"), pdfMarkerText pages.length cap⟩]
      else [])

def textMarkerText (total processed : Nat) : PStr :=
  strL "... 추가 내용 있음 (총 " ++ strL (toString total) ++ strL "줄 중 "
    ++ strL (toString processed) ++ strL "줄까지만 처리) ..."

/-- TextHandler.extract_text (text_handler.py:36-89) after a successful
decode, over the list of lines `content.splitlines()`: group lines into
chunks of `lines_per_section = max(20, total_lines // cap)` and emit one
section per chunk start `i ∈ range(0, min(total, cap*lps), lps)` (that is,
`i = k*lps` for `k < ceil(min(total, cap*lps)/lps)`), the chunk text being
the lines joined with newlines; append the overflow marker section, numbered
one past the chunk count, when lines remain beyond `cap*lps`.  Python would
raise `ZeroDivisionError` for `cap = 0`; the engine always passes the
positive `MAX_CONTENT_PER_FILE`. -/
def textExtract (lines : List PStr) (cap : Nat) : List Section :=
  let total := lines.length
  let lps := max 20 (total / cap)
  let m := min total (cap * lps)
  let numChunks := ceilDiv m lps
  let chunks := (List.range numChunks).map
    (fun k => (⟨k + 1, some (strL "text_chunk"),
      List.intercalate ['\n'] ((lines.drop (k * lps)).take lps)⟩ : Section))
  chunks ++ (if cap * lps < total
    then [(⟨numChunks + 1, some (strL "text_chunk"),
      textMarkerText total (cap * lps)⟩ : Section)]
    else [])

/-- A DOCX document: its paragraph texts (`para.text`) and its tables as
rows of cell texts (`cell.text`). -/
structure DocxDoc where
  paragraphs : List PStr
  tables : List (List (List PStr))
deriving DecidableEq, Repr

def docxMarkerText : PStr := strL "... 추가 문단 있음 (처리되지 않음) ..."

/-- The paragraph loop of DOCXHandler.extract_text (docx_handler.py:62-78):
1-based enumeration over all paragraphs; a paragraph with empty stripped
text is skipped; at the first index at or past the cap the overflow marker
section is emitted and the loop stops. -/
def docxParaLoop (cap : Nat) : Nat → List PStr → List Section
  | _, [] => []
  | i, p :: rest =>
    if cap ≤ i then [⟨i + 1, some (strL "paragraph"), docxMarkerText⟩]
    else if stripBoth p ≠ [] then
      ⟨i + 1, some (strL "paragraph"), stripBoth p⟩ :: docxParaLoop cap (i + 1) rest
    else docxParaLoop cap (i + 1) rest

/-- The accumulated `table_text` of one table (docx_handler.py:85-89): each
cell text followed by a tab, each row followed by a newline. -/
def docxTableText (rows : List (List PStr)) : PStr :=
  (rows.map (fun row => (row.map (fun cell => cell ++ ['\t'])).flatten ++ ['\n'])).flatten

/-- The table loop of DOCXHandler.extract_text (docx_handler.py:80-95): at
most `cap / 2` tables are processed (`continue`, not `break`, past that
bound); a table whose stripped text is non-empty is emitted with the
running `table_section_number`, and both counters advance only then. -/
def docxTableLoop (cap : Nat) : Nat → Nat → List (List (List PStr)) → List Section
  | _, _, [] => []
  | processed, num, tb :: rest =>
    if cap / 2 ≤ processed then docxTableLoop cap processed num rest
    else if stripBoth (docxTableText tb) ≠ [] then
      ⟨num, some (strL "table"), stripBoth (docxTableText tb)⟩ ::
        docxTableLoop cap (processed + 1) (num + 1) rest
    else docxTableLoop cap processed num rest

/-- DOCXHandler.extract_text (docx_handler.py:37-97) on a successfully opened
document: the paragraph sections (including a possible overflow marker)
followed by the table sections, whose numbering starts at one past the
length of the paragraph-section list (docx_handler.py:82). -/
def docxExtract (d : DocxDoc) (cap : Nat) : List Section :=
  let paras := docxParaLoop cap 0 d.paragraphs
  paras ++ docxTableLoop cap 0 (paras.length + 1) d.tables

/-- A registered file handler, reduced to what the registry consumes: its
declared extension list (`get_supported_extensions`) and its type label
(`get_type_description`). -/
structure Handler where
  extensions : List PStr
  type_desc : PStr
deriving DecidableEq, Repr

/-- A filesystem path, reduced to the one attribute the registry reads:
`Path.suffix` (the final extension including its dot, empty when none). -/
structure FPath where
  suffix : PStr
deriving DecidableEq, Repr

/-- FileHandler.can_handle (base.py:49-58):
`file_path.suffix.lower() in self.get_supported_extensions()`. -/
def can_handle (h : Handler) (p : FPath) : Bool :=
  h.extensions.contains (lowerL p.suffix)

/-- FileHandlerRegistry.get_handler_for_file (base.py:76-89): the first
registered handler that can handle the path, or none. -/
def get_handler_for_file (hs : List Handler) (p : FPath) : Option Handler :=
  hs.find? (fun h => can_handle h p)

/-- Python substring test `needle in hay`. -/
def hasSub : PStr → PStr → Bool
  | [], needle => needle.isEmpty
  | c :: rest, needle => litHere needle (c :: rest) || hasSub rest needle

/-- FileHandlerRegistry.can_handle_file (base.py:91-108): scan the registered
handlers in order; a handler that can handle the path accepts when the
filter is absent or when the lowered filter string is a substring of that
handler's lowered type label; otherwise the loop continues with the later
handlers. -/
def can_handle_file (hs : List Handler) (p : FPath) (ft : Option PStr) : Bool :=
  match hs with
  | [] => false
  | h :: rest =>
    if can_handle h p then
      match ft with
      | none => true
      | some f =>
        if hasSub (lowerL h.type_desc) (lowerL f) then true
        else can_handle_file rest p ft
    else can_handle_file rest p ft

def pptxHandler : Handler := ⟨[strL ".pptx"], strL "PowerPoint"⟩

def pdfHandler : Handler := ⟨[strL ".pdf"], strL "PDF"⟩

def docxHandler : Handler := ⟨[strL ".docx"], strL "Word"⟩

def textHandler : Handler :=
  ⟨[strL ".txt", strL ".md", strL ".py", strL ".js", strL ".html", strL ".css",
    strL ".json", strL ".xml", strL ".csv", strL ".ini", strL ".conf", strL ".log"],
   strL "Text"⟩

/-- The registry assembled at startup (file_search_server.py:68-72), in
registration order. -/
def handler_registry : List Handler :=
  [pptxHandler, pdfHandler, docxHandler, textHandler]

/-- The outcome of the `handler.extract_text(file_path)` call for a resolved
handler: the returned section list, or the message of an exception raised in
violation of the handler's never-raise contract. -/
abbrev ExtractOutcome := Except PStr (List Section)

def unsupportedText : PStr := strL "지원되지 않는 파일 형식입니다."

def extractFailText (e : PStr) : PStr := strL "파일 처리 중 오류 발생: " ++ e

/-- `extract_text_from_file` (file_search_server.py:158-186) over the
resolution-and-extraction outcome: `none` models the `handler is None`
branch, `some (.error e)` a handler call that raised (caught by the
enclosing try/except), `some (.ok secs)` a normal handler return, which is
passed through unchanged.  Every exception is caught, so the function is
total.  -/
def extract_text_from_file : Option ExtractOutcome → List Section
  | none => [⟨0, none, unsupportedText⟩]
  | some (.error e) => [⟨0, none, extractFailText e⟩]
  | some (.ok secs) => secs

/-- The content sections the PPTX slide loop emits for a run of slides
starting at 0-based index `i` (the `else` arm of pptx_handler.py:58-74). -/
def pptxSecs (i : Nat) : List PSlide → List Section
  | [] => []
  | sl :: rest => ⟨i + 1, some (strL "slide"), pptxSlideText sl⟩ :: pptxSecs (i + 1) rest

theorem pptxSecs_length (i : Nat) (l : List PSlide) : (pptxSecs i l).length = l.length := by
  induction l generalizing i with
  | nil => rfl
  | cons sl rest ih => simp [pptxSecs, ih]

theorem pptxLoop_overflow (cap : Nat) (slides : List PSlide) (i : Nat)
    (hi : i ≤ cap) (hlen : cap - i < slides.length) :
    pptxLoop cap i slides =
      pptxSecs i (slides.take (cap - i)) ++
        [⟨cap + 1, some (strL "slide"), pptxMarkerText⟩] := by
  induction slides generalizing i with
  | nil => simp at hlen
  | cons sl rest ih =>
    by_cases hc : cap ≤ i
    · have hieq : i = cap := Nat.le_antisymm hi hc
      have hz : cap - i = 0 := by omega
      simp [pptxLoop, hc, hz, pptxSecs, hieq]
    · have hlt : i < cap := Nat.lt_of_not_le hc
      have hstep : cap - i = (cap - (i + 1)) + 1 := by omega
      have ihr := ih (i + 1) (by omega) (by simp at hlen; omega)
      simp only [pptxLoop, if_neg hc, ihr, hstep, List.take_succ_cons, pptxSecs]
      simp

/-- Counterexample for C7: the DOCX extractor variant appends table sections
after the paragraph-overflow marker, so a document with 11 non-empty
paragraphs and one non-empty table, under cap 10, yields 11 content
sections with the marker in the middle: the marker is not the last element
of the returned sequence and the content sections do not number `cap`. -/
theorem c7_counterexample :
    docxExtract ⟨List.replicate 11 (strL "p"), [[[strL "t"]]]⟩ 10 =
      (List.range 10).map
        (fun i => ⟨i + 1, some (strL "paragraph"), strL "p"⟩) ++
        [⟨11, some (strL "paragraph"), docxMarkerText⟩,
         ⟨12, some (strL "table"), strL "t"⟩] ∧
    (docxExtract ⟨List.replicate 11 (strL "p"), [[[strL "t"]]]⟩ 10).getLast? =
      some ⟨12, some (strL "table"), strL "t"⟩ ∧
    (⟨12, some (strL "table"), strL "t"⟩ : Section).text ≠ docxMarkerText := by
  decide

/-- C7 (amended): for the PPTX, PDF and Text extractor variants, a document
whose content exceeds the max-section cap yields exactly `cap` content
sections followed by exactly one trailing overflow-marker section; the DOCX
variant violates this by appending table sections after its
paragraph-overflow marker (see the counterexample). -/
theorem c7_overflow_marker (slides : List PSlide) (pages : List PStr)
    (lines : List PStr) (cap : Nat)
    (hsl : cap < slides.length) (hpg : cap < pages.length)
    (htx : cap * max 20 (lines.length / cap) < lines.length) :
    (pptxExtract slides cap =
        pptxSecs 0 (slides.take cap) ++
          [⟨cap + 1, some (strL "slide"), pptxMarkerText⟩] ∧
      (pptxSecs 0 (slides.take cap)).length = cap) ∧
    (pdfExtract pages cap =
        (pages.take cap).enum.map
          (fun p => ⟨p.1 + 1, some (strL "page"),
            if p.2 = [] then [] else stripBoth p.2⟩) ++
          [⟨cap + 1, some (strL "page"), pdfMarkerText pages.length cap⟩] ∧
      ((pages.take cap).enum.map
        (fun p => (⟨p.1 + 1, some (strL "page"),
          if p.2 = [] then [] else stripBoth p.2⟩ : Section))).length = cap) ∧
    (textExtract lines cap =
        (List.range cap).map
          (fun k => ⟨k + 1, some (strL "text_chunk"),
            List.intercalate ['\n']
              ((lines.drop (k * max 20 (lines.length / cap))).take
                (max 20 (lines.length / cap)))⟩) ++
          [⟨cap + 1, some (strL "text_chunk"),
            textMarkerText lines.length (cap * max 20 (lines.length / cap))⟩]) := by
  refine ⟨⟨?_, ?_⟩, ⟨?_, ?_⟩, ?_⟩
  · unfold pptxExtract
    have h := pptxLoop_overflow cap slides 0 (Nat.zero_le _) (by omega)
    simpa using h
  · rw [pptxSecs_length, List.length_take]
    omega
  · unfold pdfExtract
    rw [if_pos hpg]
  · rw [List.length_map, List.enum_length, List.length_take]
    omega
  · unfold textExtract
    have hlps : 0 < max 20 (lines.length / cap) := by
      have : (0 : Nat) < 20 := by norm_num
      omega
    have hmin : min lines.length (cap * max 20 (lines.length / cap)) =
        cap * max 20 (lines.length / cap) :=
      Nat.min_eq_right (Nat.le_of_lt htx)
    have hceil : ceilDiv (cap * max 20 (lines.length / cap))
        (max 20 (lines.length / cap)) = cap := by
      unfold ceilDiv
      rw [Nat.mul_comm cap (max 20 (lines.length / cap))]
      rw [Nat.add_sub_assoc (by omega), Nat.mul_add_div hlps]
      rw [Nat.div_eq_of_lt (by omega)]
      omega
    simp only [hmin, hceil, if_pos htx]

set_option maxRecDepth 10000 in
/-- Witness for C7 (amended): 11 slides, 11 pages and 205 lines against the
engine's cap of 10 each yield exactly 10 content sections and one trailing
marker. -/
theorem c7_overflow_marker_witness :
    (pptxExtract (List.replicate 11 [strL "s"]) 10 =
        pptxSecs 0 ((List.replicate 11 [strL "s"]).take 10) ++
          [⟨11, some (strL "slide"), pptxMarkerText⟩] ∧
      (pptxSecs 0 ((List.replicate 11 [strL "s"]).take 10)).length = 10) ∧
    (pdfExtract (List.replicate 11 (strL "g")) 10 =
        ((List.replicate 11 (strL "g")).take 10).enum.map
          (fun p => ⟨p.1 + 1, some (strL "page"),
            if p.2 = [] then [] else stripBoth p.2⟩) ++
          [⟨11, some (strL "page"),
            pdfMarkerText (List.replicate 11 (strL "g")).length 10⟩] ∧
      (((List.replicate 11 (strL "g")).take 10).enum.map
        (fun p => (⟨p.1 + 1, some (strL "page"),
          if p.2 = [] then [] else stripBoth p.2⟩ : Section))).length = 10) ∧
    (textExtract (List.replicate 205 (strL "ln")) 10 =
        (List.range 10).map
          (fun k => ⟨k + 1, some (strL "text_chunk"),
            List.intercalate ['\n']
              (((List.replicate 205 (strL "ln")).drop
                (k * max 20 ((List.replicate 205 (strL "ln")).length / 10))).take
                (max 20 ((List.replicate 205 (strL "ln")).length / 10)))⟩) ++
          [⟨11, some (strL "text_chunk"),
            textMarkerText (List.replicate 205 (strL "ln")).length
              (10 * max 20 ((List.replicate 205 (strL "ln")).length / 10))⟩]) :=
  c7_overflow_marker (List.replicate 11 [strL "s"]) (List.replicate 11 (strL "g"))
    (List.replicate 205 (strL "ln")) 10 (by simp) (by simp) (by simp)

/-- The `section_number` values of a section list, in emission order. -/
def secNums (l : List Section) : List Nat := l.map (fun s => s.section_number)

theorem pptxLoop_secNums (cap : Nat) (slides : List PSlide) (i : Nat) :
    (secNums (pptxLoop cap i slides)).Pairwise (fun a b => a < b) ∧
    ∀ n ∈ secNums (pptxLoop cap i slides), i < n := by
  induction slides generalizing i with
  | nil => simp [pptxLoop, secNums]
  | cons sl rest ih =>
    by_cases hc : cap ≤ i
    · simp [pptxLoop, hc, secNums]
    · have ihr := ih (i + 1)
      have hnums : secNums (pptxLoop cap i (sl :: rest)) =
          (i + 1) :: secNums (pptxLoop cap (i + 1) rest) := by
        simp [pptxLoop, hc, secNums]
      rw [hnums]
      refine ⟨List.pairwise_cons.mpr ⟨fun n hn => ihr.2 n hn, ihr.1⟩, ?_⟩
      intro n hn
      rcases List.mem_cons.mp hn with h | h
      · omega
      · have := ihr.2 n h
        omega

theorem docxParaLoop_secNums (cap : Nat) (paras : List PStr) (i : Nat) :
    (secNums (docxParaLoop cap i paras)).Pairwise (fun a b => a < b) ∧
    ∀ n ∈ secNums (docxParaLoop cap i paras), i < n := by
  induction paras generalizing i with
  | nil => simp [docxParaLoop, secNums]
  | cons q rest ih =>
    by_cases hc : cap ≤ i
    · simp [docxParaLoop, hc, secNums]
    · have ihr := ih (i + 1)
      by_cases hq : stripBoth q ≠ []
      · have hnums : secNums (docxParaLoop cap i (q :: rest)) =
            (i + 1) :: secNums (docxParaLoop cap (i + 1) rest) := by
          simp [docxParaLoop, hc, hq, secNums]
        rw [hnums]
        refine ⟨List.pairwise_cons.mpr ⟨fun n hn => ihr.2 n hn, ihr.1⟩, ?_⟩
        intro n hn
        rcases List.mem_cons.mp hn with h | h
        · omega
        · have := ihr.2 n h
          omega
      · have hnums : secNums (docxParaLoop cap i (q :: rest)) =
            secNums (docxParaLoop cap (i + 1) rest) := by
          simp [docxParaLoop, hc, hq, secNums]
        rw [hnums]
        refine ⟨ihr.1, fun n hn => ?_⟩
        have := ihr.2 n hn
        omega

theorem pairwise_succRange (n : Nat) :
    ((List.range n).map (fun k => k + 1)).Pairwise (fun a b => a < b) :=
  List.Pairwise.map _ (fun _ _ hab => by omega) (List.pairwise_lt_range n)

theorem pairwise_succRange_marker (n c : Nat) (h : n ≤ c) :
    ((List.range n).map (fun k => k + 1) ++ [c + 1]).Pairwise (fun a b => a < b) := by
  rw [List.pairwise_append]
  refine ⟨pairwise_succRange n, by simp, ?_⟩
  intro a ha b hb
  simp only [List.mem_map, List.mem_range] at ha
  simp only [List.mem_singleton] at hb
  rcases ha with ⟨k, hk, rfl⟩
  omega

theorem pdf_secNums (pages : List PStr) (cap : Nat) :
    secNums (pdfExtract pages cap) =
      (List.range (pages.take cap).length).map (fun k => k + 1) ++
        (if cap < pages.length then [cap + 1] else []) := by
  unfold secNums pdfExtract
  rw [List.map_append, List.map_map]
  congr 1
  · show (pages.take cap).enum.map ((fun k => k + 1) ∘ Prod.fst) =
      (List.range (pages.take cap).length).map (fun k => k + 1)
    rw [← List.map_map, List.enum_map_fst]
  · split <;> simp [secNums]

theorem text_secNums (lines : List PStr) (cap : Nat) :
    secNums (textExtract lines cap) =
      (List.range (ceilDiv (min lines.length (cap * max 20 (lines.length / cap)))
          (max 20 (lines.length / cap)))).map (fun k => k + 1) ++
        (if cap * max 20 (lines.length / cap) < lines.length
          then [ceilDiv (min lines.length (cap * max 20 (lines.length / cap)))
            (max 20 (lines.length / cap)) + 1]
          else []) := by
  unfold secNums textExtract
  rw [List.map_append, List.map_map]
  congr 1
  split <;> simp [secNums]

/-- Counterexample for C9: a DOCX document whose first paragraph is empty
(hence skipped) and which carries one non-empty table yields section index 2
twice: the table numbering restarts at one past the number of emitted
paragraph sections, colliding with the last paragraph's index. -/
theorem c9_counterexample :
    secNums (docxExtract ⟨[[], strL "x"], [[[strL "y"]]]⟩ 10) = [2, 2] ∧
    ¬ (secNums (docxExtract ⟨[[], strL "x"], [[[strL "y"]]]⟩ 10)).Pairwise
        (fun a b => a < b) := by
  constructor
  · decide
  · intro hp
    have h2 : secNums (docxExtract ⟨[[], strL "x"], [[[strL "y"]]]⟩ 10) = [2, 2] := by
      decide
    rw [h2] at hp
    have := (List.pairwise_cons.mp hp).1 2 (by simp)
    omega

/-- C9 (amended): the section numbers emitted by one successful extraction
are strictly increasing in emission order for the PPTX, PDF and Text
variants, and for DOCX documents without tables; DOCX table sections restart
numbering at one past the count of emitted paragraph sections and can repeat
a paragraph index when empty paragraphs were skipped (see the
counterexample). -/
theorem c9_section_numbers_increasing :
    (∀ (slides : List PSlide) (cap : Nat),
      (secNums (pptxExtract slides cap)).Pairwise (fun a b => a < b)) ∧
    (∀ (pages : List PStr) (cap : Nat),
      (secNums (pdfExtract pages cap)).Pairwise (fun a b => a < b)) ∧
    (∀ (lines : List PStr) (cap : Nat),
      (secNums (textExtract lines cap)).Pairwise (fun a b => a < b)) ∧
    (∀ (paras : List PStr) (cap : Nat),
      (secNums (docxExtract ⟨paras, []⟩ cap)).Pairwise (fun a b => a < b)) := by
  refine ⟨?_, ?_, ?_, ?_⟩
  · intro slides cap
    exact (pptxLoop_secNums cap slides 0).1
  · intro pages cap
    rw [pdf_secNums]
    by_cases h : cap < pages.length
    · rw [if_pos h]
      refine pairwise_succRange_marker _ _ ?_
      rw [List.length_take]
      omega
    · rw [if_neg h]
      simpa using pairwise_succRange (pages.take cap).length
  · intro lines cap
    rw [text_secNums]
    by_cases h : cap * max 20 (lines.length / cap) < lines.length
    · rw [if_pos h]
      exact pairwise_succRange_marker _ _ (Nat.le_refl _)
    · rw [if_neg h]
      simpa using pairwise_succRange _
  · intro paras cap
    have : docxExtract ⟨paras, []⟩ cap = docxParaLoop cap 0 paras := by
      simp [docxExtract, docxTableLoop]
    rw [this]
    exact (docxParaLoop_secNums cap paras 0).1

theorem can_handle_file_iff (hs : List Handler) (p : FPath) (ft : Option PStr) :
    can_handle_file hs p ft = true ↔
      ∃ h ∈ hs, can_handle h p = true ∧
        (ft = none ∨ ∃ f, ft = some f ∧ hasSub (lowerL h.type_desc) (lowerL f) = true) := by
  induction hs with
  | nil => simp [can_handle_file]
  | cons h rest ih =>
    by_cases hc : can_handle h p = true
    · cases ft with
      | none =>
        constructor
        · intro _
          exact ⟨h, List.mem_cons_self h rest, hc, Or.inl rfl⟩
        · intro _
          simp [can_handle_file, hc]
      | some f =>
        by_cases hsb : hasSub (lowerL h.type_desc) (lowerL f) = true
        · constructor
          · intro _
            exact ⟨h, List.mem_cons_self h rest, hc, Or.inr ⟨f, rfl, hsb⟩⟩
          · intro _
            simp [can_handle_file, hc, hsb]
        · have hstep : can_handle_file (h :: rest) p (some f) =
              can_handle_file rest p (some f) := by
            simp [can_handle_file, hc, hsb]
          rw [hstep, ih]
          constructor
          · rintro ⟨g, hg, hgc, hgf⟩
            exact ⟨g, List.mem_cons_of_mem _ hg, hgc, hgf⟩
          · rintro ⟨g, hg, hgc, hgf⟩
            rcases List.mem_cons.mp hg with rfl | hg2
            · rcases hgf with hnone | ⟨f2, hf2, hsub2⟩
              · exact absurd hnone (by simp)
              · rw [Option.some_inj.mp hf2] at hsb
                exact absurd hsub2 hsb
            · exact ⟨g, hg2, hgc, hgf⟩
    · have hstep : can_handle_file (h :: rest) p ft = can_handle_file rest p ft := by
        simp [can_handle_file, hc]
      rw [hstep, ih]
      constructor
      · rintro ⟨g, hg, hgc, hgf⟩
        exact ⟨g, List.mem_cons_of_mem _ hg, hgc, hgf⟩
      · rintro ⟨g, hg, hgc, hgf⟩
        rcases List.mem_cons.mp hg with rfl | hg2
        · exact absurd hgc hc
        · exact ⟨g, hg2, hgc, hgf⟩

/-- Counterexample for C8: with two registered variants sharing the
extension ".x" and labels "Alpha", "Beta", and the filter "beta",
`can_handle_file` accepts (the second variant matches the filter) although
the resolving (first-registered) variant is "Alpha", whose label does not
contain the filter — so accepting is not tied to the resolving variant. -/
theorem c8_counterexample :
    can_handle_file [⟨[strL ".x"], strL "Alpha"⟩, ⟨[strL ".x"], strL "Beta"⟩]
      ⟨strL ".x"⟩ (some (strL "beta")) = true ∧
    get_handler_for_file [⟨[strL ".x"], strL "Alpha"⟩, ⟨[strL ".x"], strL "Beta"⟩]
      ⟨strL ".x"⟩ = some ⟨[strL ".x"], strL "Alpha"⟩ ∧
    hasSub (lowerL (strL "Alpha")) (lowerL (strL "beta")) = false := by
  decide

/-- C8 (amended): `get_handler_for_file` returns the first registered variant
whose extension set contains the path's lowercased suffix (none when no
variant matches); `can_handle_file` is true iff SOME registered variant can
handle the path and (the filter is absent or is a case-insensitive substring
of that variant's own type label) — not necessarily the first-resolving
variant's label (they coincide when extension sets are disjoint, as in the
shipped registry). -/
theorem c8_resolve_and_accepts (hs : List Handler) (p : FPath) (ft : Option PStr) :
    (can_handle_file hs p ft = true ↔
      ∃ h ∈ hs, can_handle h p = true ∧
        (ft = none ∨ ∃ f, ft = some f ∧
          hasSub (lowerL h.type_desc) (lowerL f) = true)) ∧
    (∀ h : Handler, get_handler_for_file hs p = some h →
      h ∈ hs ∧ can_handle h p = true) ∧
    (get_handler_for_file hs p = none ↔ ∀ h ∈ hs, can_handle h p = false) ∧
    (∀ (l1 l2 : List Handler) (h : Handler), hs = l1 ++ h :: l2 →
      can_handle h p = true → (∀ g ∈ l1, can_handle g p = false) →
      get_handler_for_file hs p = some h) := by
  refine ⟨can_handle_file_iff hs p ft, ?_, ?_, ?_⟩
  · intro h hfind
    unfold get_handler_for_file at hfind
    have h2 := List.find?_some hfind
    exact ⟨List.mem_of_find?_eq_some hfind, h2⟩
  · unfold get_handler_for_file
    rw [List.find?_eq_none]
    constructor
    · intro hnone h hmem
      have := hnone h hmem
      simpa using this
    · intro hall h hmem
      simp [hall h hmem]
  · intro l1 l2 h heq hch hprev
    subst heq
    induction l1 with
    | nil =>
      simpa [get_handler_for_file] using
        List.find?_cons_of_pos (p := fun g => can_handle g p) l2 hch
    | cons g gs ihg =>
      have hg : can_handle g p = false := hprev g (List.mem_cons_self g gs)
      have hrest := ihg (fun x hx => hprev x (List.mem_cons_of_mem g hx))
      unfold get_handler_for_file at hrest ⊢
      rw [List.cons_append, List.find?_cons_of_neg]
      · exact hrest
      · simp [hg]

/-- Witness for C8 (amended): on the shipped registry, an uppercase ".PDF"
suffix resolves to the PDF handler (second-registered, first match). -/
theorem c8_resolve_and_accepts_witness :
    get_handler_for_file handler_registry ⟨strL ".PDF"⟩ = some pdfHandler :=
  (c8_resolve_and_accepts handler_registry ⟨strL ".PDF"⟩ (some (strL "pdf"))).2.2.2
    [pptxHandler] [docxHandler, textHandler] pdfHandler rfl (by decide) (by decide)

/-- Counterexample for C10: `extract_text_from_file` can return the empty
list: the registered Text handler legitimately returns no sections for an
empty file (no lines), and that list is passed through unchanged. -/
theorem c10_counterexample :
    extract_text_from_file (some (Except.ok (textExtract [] 10))) = [] ∧
    textExtract [] 10 = [] := by
  decide

/-- C10 (amended): `extract_text_from_file` never raises (it is a total
function of the resolution-and-extraction outcome): with no resolving
handler it returns the single diagnostic section numbered 0; when the
resolved handler raises it returns the single diagnostic section numbered 0
describing the error; otherwise it returns the handler's section list
unchanged — which may be empty. -/
theorem c10_extract_text_total :
    extract_text_from_file none = [⟨0, none, unsupportedText⟩] ∧
    (∀ e : PStr, extract_text_from_file (some (Except.error e)) =
      [⟨0, none, extractFailText e⟩]) ∧
    (∀ secs : List Section, extract_text_from_file (some (Except.ok secs)) = secs) :=
  ⟨rfl, fun _ => rfl, fun _ => rfl⟩

end FileSearch
